import Mathlib

/-!
Shallow embedding of the pirello board state engine.

Sources:
* src/src/context/BoardReducer.ts   — the transition engine (boardReducer)
* src/src/context/BoardContext.tsx  — the state normalizer (normalizeState)
* src/src/types/card.ts             — Card / CardVersion types
* src/unnamed/part_002              — Project type (multi-project shape)

JavaScript objects used as string-keyed maps are modelled as association
lists (`List (String × α)`) with JS-object semantics: `objGet` is property
lookup, `objSet` is `\x7b...m, [k]: v\x7d` (updates in place, else appends),
`objDel` is `delete m[k]`.  `generateId()` and `new Date().toISOString()`
are modelled as explicit parameters (`fresh : Nat → String`, `now : String`)
so every function is pure and deterministic.
-/

namespace Pirello

/-- Label for categorizing cards with colors (src/unnamed/part_003,
label.ts). -/
structure Label where
  id : String
  name : String
  color : String
deriving DecidableEq, Repr

/-- Card type categories (src/src/types/card.ts). -/
inductive CardType where
  | feature
  | bug
  | task
  | story
deriving DecidableEq, Repr

/-- Priority levels for cards (src/src/types/card.ts). -/
inductive Priority where
  | low
  | medium
  | high
  | urgent
deriving DecidableEq, Repr

/-- A card on the board (src/src/types/card.ts).  `dueDate`, `assignee` are
string-or-null; dates are ISO strings. -/
structure Card where
  id : String
  projectId : String
  title : String
  description : String
  type : CardType
  priority : Priority
  dueDate : Option String
  labels : List Label
  assignee : Option String
  laneId : String
  order : Int
  isDeleted : Bool
  createdAt : String
  updatedAt : String
deriving DecidableEq, Repr

/-- `Omit<Card, 'id'>` — the snapshot stored inside a CardVersion. -/
structure CardData where
  projectId : String
  title : String
  description : String
  type : CardType
  priority : Priority
  dueDate : Option String
  labels : List Label
  assignee : Option String
  laneId : String
  order : Int
  isDeleted : Bool
  createdAt : String
  updatedAt : String
deriving DecidableEq, Repr

/-- Versioned snapshot of a card for undo functionality (src/src/types/card.ts). -/
structure CardVersion where
  id : String
  cardId : String
  version : Int
  data : CardData
  timestamp : String
deriving DecidableEq, Repr

/-- A lane (column) on the board that contains cards (src/unnamed/part_004,
lane.ts); `cardIds` references cards in display order. -/
structure Lane where
  id : String
  title : String
  order : Int
  cardIds : List String
deriving DecidableEq, Repr

/-- A project containing lanes (src/unnamed/part_002, multi-project shape). -/
structure Project where
  id : String
  title : String
  thumbnailUrl : Option String
  lanes : List Lane
  createdAt : String
  updatedAt : String
deriving DecidableEq, Repr

/-- The board state (spec §3; field-for-field the shape built by
BoardReducer.ts / BoardContext.tsx).  `cards` and `cardVersions` are JS
objects keyed by card id, modelled as association lists. -/
structure BoardState where
  projects : List Project
  activeProjectId : Option String
  cards : List (String × Card)
  cardVersions : List (String × List CardVersion)
  isLoading : Bool
  error : Option String
deriving DecidableEq, Repr

/-! ## JS-object operations on association lists -/

/-- JS property lookup `m[k]` (`undefined` becomes `none`). -/
def objGet (m : List (String × α)) (k : String) : Option α :=
  (m.find? (fun e => e.1 == k)).map (fun e => e.2)

/-- JS spread-with-computed-key `\x7b...m, [k]: v\x7d`: replaces the value at an
existing key in place, otherwise appends the new key. -/
def objSet (m : List (String × α)) (k : String) (v : α) : List (String × α) :=
  if m.any (fun e => e.1 == k) then
    m.map (fun e => if e.1 == k then (k, v) else e)
  else
    m ++ [(k, v)]

/-- JS `delete m[k]`. -/
def objDel (m : List (String × α)) (k : String) : List (String × α) :=
  m.filter (fun e => e.1 != k)

/-! ## Action payloads (src/src/context/BoardActions.ts is only consumed via
BoardReducer.ts / BoardContext.tsx; payload shapes are read off those uses) -/

/-- Payload of ADD_CARD: `Omit<Card, 'id' | 'createdAt' | 'updatedAt' |
'isDeleted' | 'projectId'>` (BoardContext.tsx `addCard`). -/
structure AddCardPayload where
  title : String
  description : String
  type : CardType
  priority : Priority
  dueDate : Option String
  labels : List Label
  assignee : Option String
  laneId : String
  order : Int
deriving DecidableEq, Repr

/-- `Partial<Card>` — every field optional (absent = `none`). -/
structure CardPatch where
  id : Option String := none
  projectId : Option String := none
  title : Option String := none
  description : Option String := none
  type : Option CardType := none
  priority : Option Priority := none
  dueDate : Option (Option String) := none
  labels : Option (List Label) := none
  assignee : Option (Option String) := none
  laneId : Option String := none
  order : Option Int := none
  isDeleted : Option Bool := none
  createdAt : Option String := none
  updatedAt : Option String := none
deriving DecidableEq, Repr

/-- `Partial<Lane>`. -/
structure LanePatch where
  id : Option String := none
  title : Option String := none
  order : Option Int := none
  cardIds : Option (List String) := none
deriving DecidableEq, Repr

/-- `Partial<Project>`. -/
structure ProjectPatch where
  id : Option String := none
  title : Option String := none
  thumbnailUrl : Option (Option String) := none
  lanes : Option (List Lane) := none
  createdAt : Option String := none
  updatedAt : Option String := none
deriving DecidableEq, Repr

/-- `\x7b...existingCard, ...updates, updatedAt: now\x7d` (UPDATE_CARD):
spread of a partial patch over a card, with `updatedAt` overridden last. -/
def applyCardPatch (c : Card) (p : CardPatch) (now : String) : Card :=
  { id := p.id.getD c.id
    projectId := p.projectId.getD c.projectId
    title := p.title.getD c.title
    description := p.description.getD c.description
    type := p.type.getD c.type
    priority := p.priority.getD c.priority
    dueDate := p.dueDate.getD c.dueDate
    labels := p.labels.getD c.labels
    assignee := p.assignee.getD c.assignee
    laneId := p.laneId.getD c.laneId
    order := p.order.getD c.order
    isDeleted := p.isDeleted.getD c.isDeleted
    createdAt := p.createdAt.getD c.createdAt
    updatedAt := now }

/-- `\x7b...lane, ...updates\x7d` (UPDATE_LANE). -/
def applyLanePatch (l : Lane) (p : LanePatch) : Lane :=
  { id := p.id.getD l.id
    title := p.title.getD l.title
    order := p.order.getD l.order
    cardIds := p.cardIds.getD l.cardIds }

/-- `\x7b...project, ...updates, updatedAt: now\x7d` (UPDATE_PROJECT). -/
def applyProjectPatch (pr : Project) (p : ProjectPatch) (now : String) : Project :=
  { id := p.id.getD pr.id
    title := p.title.getD pr.title
    thumbnailUrl := p.thumbnailUrl.getD pr.thumbnailUrl
    lanes := p.lanes.getD pr.lanes
    createdAt := p.createdAt.getD pr.createdAt
    updatedAt := now }

/-- The action union switched on by boardReducer (BoardReducer.ts).  The
`unknown` constructor models any action object whose `type` string matches
no listed case: the switch default returns the state unchanged. -/
inductive BoardAction where
  | addCard (payload : AddCardPayload)
  | updateCard (id : String) (updates : CardPatch)
  | deleteCard (id : String)
  | restoreCard (id : String)
  | moveCard (cardId : String) (toLaneId : String) (toIndex : Int)
  | reorderCards (laneId : String) (cardIds : List String)
  | undoCard (cardId : String)
  | addLane (title : String)
  | updateLane (id : String) (updates : LanePatch)
  | deleteLane (id : String)
  | reorderLanes (laneIds : List String)
  | addProject (title : String) (thumbnailUrl : Option String)
  | updateProject (id : String) (updates : ProjectPatch)
  | deleteProject (id : String)
  | setActiveProject (id : String)
  | loadState (payload : BoardState)
  | setError (message : Option String)
  | unknown
deriving DecidableEq, Repr

/-! ## Helpers of BoardReducer.ts -/

/-- `createCardVersion` (BoardReducer.ts lines 9–35).  The fresh version id
and the timestamp are passed in explicitly. -/
def createCardVersion (freshId time : String) (card : Card)
    (existingVersions : List CardVersion) : CardVersion :=
  let nextVersion : Int :=
    match existingVersions.map (fun v => v.version) with
    | [] => 1
    | v :: vs => vs.foldl max v + 1
  { id := freshId
    cardId := card.id
    version := nextVersion
    data :=
      { projectId := card.projectId
        title := card.title
        description := card.description
        type := card.type
        priority := card.priority
        dueDate := card.dueDate
        labels := card.labels
        assignee := card.assignee
        laneId := card.laneId
        order := card.order
        isDeleted := card.isDeleted
        createdAt := card.createdAt
        updatedAt := card.updatedAt }
    timestamp := time }

/-- Default lane configuration (src/unnamed/part_004, lane.ts):
Todo@0 / Doing@1 / Done@2 with empty cardIds.  The source type is
`Omit<Lane, 'id'>[]`; the placeholder empty id is always overwritten by
`createDefaultLanes`. -/
def DEFAULT_LANES : List Lane :=
  [ { id := "", title := "Todo", order := 0, cardIds := [] }
  , { id := "", title := "Doing", order := 1, cardIds := [] }
  , { id := "", title := "Done", order := 2, cardIds := [] } ]

/-- `createDefaultLanes` (BoardReducer.ts lines 37–42): DEFAULT_LANES with a
fresh id per lane. -/
def createDefaultLanes (fresh : Nat → String) : List Lane :=
  DEFAULT_LANES.enum.map (fun e => { e.2 with id := fresh e.1 })

/-- `getActiveProject` (BoardReducer.ts lines 44–47).  JS truthiness: an
empty-string `activeProjectId` is falsy, hence also yields `none`. -/
def getActiveProject (state : BoardState) : Option Project :=
  match state.activeProjectId with
  | none => none
  | some pid =>
    if pid == "" then none
    else state.projects.find? (fun project => project.id == pid)

/-- `mapActiveProject` (BoardReducer.ts lines 49–59). -/
def mapActiveProject (state : BoardState) (updater : Project → Project) :
    Option (List Project) :=
  match getActiveProject state with
  | none => none
  | some activeProject =>
    some (state.projects.map (fun project =>
      if project.id == activeProject.id then updater activeProject else project))

/-- One iteration of DELETE_LANE's reassignment loop (BoardReducer.ts lines
483–491): `if (updatedCards[cardId]) \x7b updatedCards[cardId] =
\x7b...updatedCards[cardId], laneId: firstLane.id, updatedAt: now\x7d \x7d`. -/
def reassignCardLane (newLaneId now : String) (acc : List (String × Card))
    (cardId : String) : List (String × Card) :=
  match objGet acc cardId with
  | some c => objSet acc cardId { c with laneId := newLaneId, updatedAt := now }
  | none => acc

/-- `arr.splice(toIndex, 0, x)` insertion semantics on a copy of `arr`:
an index past the end appends, a negative index counts from the end
(clamped at 0). -/
def spliceInsert (l : List String) (idx : Int) (x : String) : List String :=
  let n : Int := l.length
  let i : Nat := (if idx < 0 then max (n + idx) 0 else min idx n).toNat
  l.take i ++ [x] ++ l.drop i

/-- `boardReducer` (BoardReducer.ts lines 64–637).  `now` stands for the
`new Date().toISOString()` taken at dispatch time and `fresh` for the
successive `generateId()` results of this dispatch. -/
def boardReducer (now : String) (fresh : Nat → String) (state : BoardState)
    (action : BoardAction) : BoardState :=
  match action with
  | .addCard payload =>
    match getActiveProject state with
    | none => state
    | some activeProject =>
      let newCard : Card :=
        { id := fresh 0
          projectId := activeProject.id
          title := payload.title
          description := payload.description
          type := payload.type
          priority := payload.priority
          dueDate := payload.dueDate
          labels := payload.labels
          assignee := payload.assignee
          laneId := payload.laneId
          order := payload.order
          isDeleted := false
          createdAt := now
          updatedAt := now }
      let updatedLanes := activeProject.lanes.map (fun lane =>
        if lane.id == payload.laneId then
          { lane with cardIds := lane.cardIds ++ [newCard.id] }
        else lane)
      match mapActiveProject state (fun project =>
          { project with lanes := updatedLanes, updatedAt := now }) with
      | none => state
      | some updatedProjects =>
        { state with
            cards := objSet state.cards newCard.id newCard
            projects := updatedProjects }
  | .updateCard id updates =>
    match objGet state.cards id with
    | none => state
    | some existingCard =>
      let existingVersions := (objGet state.cardVersions id).getD []
      let newVersion := createCardVersion (fresh 0) now existingCard existingVersions
      let updatedCard := applyCardPatch existingCard updates now
      match mapActiveProject state (fun project => { project with updatedAt := now }) with
      | none => state
      | some updatedProjects =>
        { state with
            cards := objSet state.cards id updatedCard
            cardVersions := objSet state.cardVersions id (existingVersions ++ [newVersion])
            projects := updatedProjects }
  | .deleteCard id =>
    match objGet state.cards id with
    | none => state
    | some existingCard =>
      let existingVersions := (objGet state.cardVersions id).getD []
      let newVersion := createCardVersion (fresh 0) now existingCard existingVersions
      let updatedCard : Card := { existingCard with isDeleted := true, updatedAt := now }
      match getActiveProject state with
      | none => state
      | some activeProject =>
        let updatedLanes := activeProject.lanes.map (fun lane =>
          if lane.id == existingCard.laneId then
            { lane with cardIds := lane.cardIds.filter (fun cardId => cardId != id) }
          else lane)
        { state with
            cards := objSet state.cards id updatedCard
            cardVersions := objSet state.cardVersions id (existingVersions ++ [newVersion])
            projects := (mapActiveProject state (fun project =>
              { project with lanes := updatedLanes, updatedAt := now })).getD state.projects }
  | .restoreCard id =>
    match objGet state.cards id with
    | none => state
    | some existingCard =>
      if !existingCard.isDeleted then state
      else
        let restoredCard : Card := { existingCard with isDeleted := false, updatedAt := now }
        match getActiveProject state with
        | none => state
        | some activeProject =>
          let updatedLanes := activeProject.lanes.map (fun lane =>
            if lane.id == existingCard.laneId then
              { lane with cardIds := lane.cardIds ++ [id] }
            else lane)
          { state with
              cards := objSet state.cards id restoredCard
              projects := (mapActiveProject state (fun project =>
                { project with lanes := updatedLanes, updatedAt := now })).getD state.projects }
  | .moveCard cardId toLaneId toIndex =>
    match objGet state.cards cardId with
    | none => state
    | some card =>
      let fromLaneId := card.laneId
      let existingVersions := (objGet state.cardVersions cardId).getD []
      let newVersion := createCardVersion (fresh 0) now card existingVersions
      let updatedCard : Card := { card with laneId := toLaneId, updatedAt := now }
      match getActiveProject state with
      | none => state
      | some activeProject =>
        let updatedLanes := activeProject.lanes.map (fun lane =>
          if lane.id == fromLaneId && fromLaneId != toLaneId then
            { lane with cardIds := lane.cardIds.filter (fun id => id != cardId) }
          else if lane.id == toLaneId then
            { lane with cardIds :=
                spliceInsert (lane.cardIds.filter (fun id => id != cardId)) toIndex cardId }
          else lane)
        { state with
            cards := objSet state.cards cardId updatedCard
            cardVersions := objSet state.cardVersions cardId (existingVersions ++ [newVersion])
            projects := (mapActiveProject state (fun project =>
              { project with lanes := updatedLanes, updatedAt := now })).getD state.projects }
  | .reorderCards laneId cardIds =>
    match getActiveProject state with
    | none => state
    | some activeProject =>
      let updatedLanes := activeProject.lanes.map (fun lane =>
        if lane.id == laneId then { lane with cardIds := cardIds } else lane)
      { state with
          projects := (mapActiveProject state (fun project =>
            { project with lanes := updatedLanes, updatedAt := now })).getD state.projects }
  | .undoCard cardId =>
    match objGet state.cardVersions cardId with
    | none => state
    | some versions =>
      if versions.length == 0 then state
      else
        match versions.getLast? with
        | none => state
        | some previousVersion =>
          let restoredCard : Card :=
            { id := cardId
              projectId := previousVersion.data.projectId
              title := previousVersion.data.title
              description := previousVersion.data.description
              type := previousVersion.data.type
              priority := previousVersion.data.priority
              dueDate := previousVersion.data.dueDate
              labels := previousVersion.data.labels
              assignee := previousVersion.data.assignee
              laneId := previousVersion.data.laneId
              order := previousVersion.data.order
              isDeleted := previousVersion.data.isDeleted
              createdAt := previousVersion.data.createdAt
              updatedAt := now }
          let currentCard := objGet state.cards cardId
          match getActiveProject state with
          | none => state
          | some activeProject =>
            let updatedLanes :=
              match currentCard with
              | some c =>
                if c.laneId != restoredCard.laneId then
                  activeProject.lanes.map (fun lane =>
                    if lane.id == c.laneId then
                      { lane with cardIds := lane.cardIds.filter (fun id => id != cardId) }
                    else if lane.id == restoredCard.laneId then
                      { lane with cardIds := lane.cardIds ++ [cardId] }
                    else lane)
                else activeProject.lanes
              | none => activeProject.lanes
            let remainingVersions := versions.dropLast
            { state with
                cards := objSet state.cards cardId restoredCard
                cardVersions := objSet state.cardVersions cardId remainingVersions
                projects := (mapActiveProject state (fun project =>
                  { project with lanes := updatedLanes, updatedAt := now })).getD state.projects }
  | .addLane title =>
    match getActiveProject state with
    | none => state
    | some activeProject =>
      let maxOrder := (activeProject.lanes.map (fun l => l.order)).foldl max (-1)
      let newLane : Lane := { id := fresh 0, title := title, order := maxOrder + 1, cardIds := [] }
      { state with
          projects := (mapActiveProject state (fun project =>
            { project with lanes := activeProject.lanes ++ [newLane], updatedAt := now })).getD
            state.projects }
  | .updateLane id updates =>
    match getActiveProject state with
    | none => state
    | some activeProject =>
      let updatedLanes := activeProject.lanes.map (fun lane =>
        if lane.id == id then applyLanePatch lane updates else lane)
      { state with
          projects := (mapActiveProject state (fun project =>
            { project with lanes := updatedLanes, updatedAt := now })).getD state.projects }
  | .deleteLane id =>
    match getActiveProject state with
    | none => state
    | some activeProject =>
      if activeProject.lanes.length ≤ 1 then
        { state with error := some "Cannot delete the last lane" }
      else
        match activeProject.lanes.find? (fun l => l.id == id) with
        | none => state
        | some laneToDelete =>
          let remainingLanes := activeProject.lanes.filter (fun l => l.id != id)
          match remainingLanes with
          -- Every lane bears the deleted id, so `firstLane` is undefined in
          -- JS.  When some listed card exists the reassignment loop reads
          -- `firstLane.id` and throws a TypeError — that faulting execution
          -- is captured by `boardReducerThrows` below and the value given
          -- here is never relied upon.  When no listed card exists the loop
          -- never reads `firstLane` and the map over the empty remainder
          -- silently empties the project's lanes, as modelled here.
          | [] =>
            { state with
                projects := (mapActiveProject state (fun project =>
                  { project with lanes := [], updatedAt := now })).getD state.projects }
          | firstLane :: _ =>
            let updatedCards :=
              laneToDelete.cardIds.foldl (reassignCardLane firstLane.id now) state.cards
            let updatedLanes := remainingLanes.enum.map (fun e =>
              if e.2.id == firstLane.id then
                { e.2 with cardIds := e.2.cardIds ++ laneToDelete.cardIds, order := (e.1 : Int) }
              else { e.2 with order := (e.1 : Int) })
            { state with
                cards := updatedCards
                projects := (mapActiveProject state (fun project =>
                  { project with lanes := updatedLanes, updatedAt := now })).getD state.projects }
  | .reorderLanes laneIds =>
    match getActiveProject state with
    | none => state
    | some activeProject =>
      let reorderedLanes := laneIds.enum.filterMap (fun e =>
        (activeProject.lanes.reverse.find? (fun l => l.id == e.2)).map
          (fun lane => { lane with order := (e.1 : Int) }))
      { state with
          projects := (mapActiveProject state (fun project =>
            { project with lanes := reorderedLanes, updatedAt := now })).getD state.projects }
  | .addProject title thumbnailUrl =>
    let newProject : Project :=
      { id := fresh 0
        title := title
        thumbnailUrl := thumbnailUrl
        lanes := createDefaultLanes (fun n => fresh (n + 1))
        createdAt := now
        updatedAt := now }
    { state with
        projects := state.projects ++ [newProject]
        activeProjectId := some newProject.id }
  | .updateProject id updates =>
    { state with
        projects := state.projects.map (fun project =>
          if project.id == id then applyProjectPatch project updates now else project) }
  | .deleteProject id =>
    let remainingProjects := state.projects.filter (fun project => project.id != id)
    if remainingProjects.length == state.projects.length then state
    else if remainingProjects.length == 0 then
      { state with error := some "Cannot delete the last project" }
    else
      let entries := state.cards
      let updatedCards := entries.foldl (fun acc e =>
        if e.2.projectId == id then objDel acc e.1 else acc) state.cards
      let updatedVersions := entries.foldl (fun acc e =>
        if e.2.projectId == id then objDel acc e.1 else acc) state.cardVersions
      let nextActiveProjectId :=
        if state.activeProjectId == some id then
          (remainingProjects.head?).map (fun p => p.id)
        else state.activeProjectId
      { state with
          projects := remainingProjects
          activeProjectId := nextActiveProjectId
          cards := updatedCards
          cardVersions := updatedVersions }
  | .setActiveProject id =>
    { state with activeProjectId := some id }
  | .loadState payload =>
    { payload with isLoading := false }
  | .setError message =>
    { state with error := message }
  | .unknown => state

/-- The one execution on which `boardReducer` in BoardReducer.ts is not
total: DELETE_LANE past the count and existence guards with an empty
remainder (every one of the ≥ 2 lanes bears the deleted id, reachable via
UPDATE_LANE id collisions) evaluates `firstLane.id` with `firstLane`
undefined as soon as the deleted lane lists an existing card, throwing a
TypeError (lines 479–487).  Every other action path only reads
properties behind guards or optional chaining and never throws.  On inputs
satisfying this predicate the TS code produces no state and the value of
the total model `boardReducer` is not meaningful. -/
def boardReducerThrows (state : BoardState) (action : BoardAction) : Bool :=
  match action with
  | .deleteLane id =>
    match getActiveProject state with
    | none => false
    | some activeProject =>
      if activeProject.lanes.length ≤ 1 then false
      else
        match activeProject.lanes.find? (fun l => l.id == id) with
        | none => false
        | some laneToDelete =>
          (activeProject.lanes.filter (fun l => l.id != id)).isEmpty
            && laneToDelete.cardIds.any (fun cardId => (objGet state.cards cardId).isSome)
  | _ => false

/-! ## State normalizer (BoardContext.tsx lines 93–196)

Raw persisted blobs may be the current multi-project shape with some fields
absent, or the legacy single-project shape.  Absent (`undefined`) and `null`
are collapsed into `none` wherever the code only probes them with `??`,
which treats them identically. -/

/-- A card as persisted: `projectId` may be absent. -/
structure RawCard where
  id : String
  projectId : Option String
  title : String
  description : String
  type : CardType
  priority : Priority
  dueDate : Option String
  labels : List Label
  assignee : Option String
  laneId : String
  order : Int
  isDeleted : Bool
  createdAt : String
  updatedAt : String
deriving DecidableEq, Repr

/-- A version snapshot as persisted: `data.projectId` may be absent. -/
structure RawCardData where
  projectId : Option String
  title : String
  description : String
  type : CardType
  priority : Priority
  dueDate : Option String
  labels : List Label
  assignee : Option String
  laneId : String
  order : Int
  isDeleted : Bool
  createdAt : String
  updatedAt : String
deriving DecidableEq, Repr

/-- A card version as persisted. -/
structure RawCardVersion where
  id : String
  cardId : String
  version : Int
  data : RawCardData
  timestamp : String
deriving DecidableEq, Repr

/-- A project in a persisted multi-project blob: `title` and `thumbnailUrl`
may be absent (backfilled by the normalizer). -/
structure RawProject where
  id : String
  title : Option String
  thumbnailUrl : Option String
  lanes : List Lane
  createdAt : String
  updatedAt : String
deriving DecidableEq, Repr

/-- The legacy single-board project (`LegacyBoardState.project`,
BoardContext.tsx lines 93–106): `name`/`title` optional; the code further
defends `lanes`/`createdAt`/`updatedAt` with `??`. -/
structure LegacyProject where
  id : String
  name : Option String
  title : Option String
  lanes : Option (List Lane)
  createdAt : Option String
  updatedAt : Option String
deriving DecidableEq, Repr

/-- A persisted blob as accepted by `normalizeState`: either the current
multi-project shape (discriminated by the presence of a `projects` field)
or the legacy single-project shape. -/
inductive RawState where
  | multi (projects : List RawProject) (activeProjectId : Option String)
      (cards : List (String × RawCard))
      (cardVersions : Option (List (String × List RawCardVersion)))
      (isLoading : Option Bool) (error : Option String)
  | legacy (project : LegacyProject) (cards : Option (List (String × RawCard)))
      (cardVersions : Option (List (String × List RawCardVersion)))
      (isLoading : Option Bool) (error : Option String)
deriving DecidableEq, Repr

/-- `card.projectId ?? fallback ?? ''` — resolve a raw card. -/
def resolveRawCard (fallback : Option String) (c : RawCard) : Card :=
  { id := c.id
    projectId := c.projectId.getD (fallback.getD "")
    title := c.title
    description := c.description
    type := c.type
    priority := c.priority
    dueDate := c.dueDate
    labels := c.labels
    assignee := c.assignee
    laneId := c.laneId
    order := c.order
    isDeleted := c.isDeleted
    createdAt := c.createdAt
    updatedAt := c.updatedAt }

/-- `\x7b...version, data: \x7b...version.data, projectId: version.data.projectId ??
projectId\x7d\x7d` — resolve a raw card version against the owning card's id. -/
def resolveRawVersion (projectId : String) (v : RawCardVersion) : CardVersion :=
  { id := v.id
    cardId := v.cardId
    version := v.version
    data :=
      { projectId := v.data.projectId.getD projectId
        title := v.data.title
        description := v.data.description
        type := v.data.type
        priority := v.data.priority
        dueDate := v.data.dueDate
        labels := v.data.labels
        assignee := v.data.assignee
        laneId := v.data.laneId
        order := v.data.order
        isDeleted := v.data.isDeleted
        createdAt := v.data.createdAt
        updatedAt := v.data.updatedAt }
    timestamp := v.timestamp }

/-- Resolve the `cardVersions` map: each snapshot's missing `projectId` is
backfilled from the owning (already resolved) card when present, else from
the given fallback (`cards[cardId]?.projectId ?? activeProjectId ?? ''`,
resp. the legacy project id). -/
def resolveRawVersions (cards : List (String × Card)) (fallback : String)
    (versions : List (String × List RawCardVersion)) :
    List (String × List CardVersion) :=
  versions.map (fun e =>
    let projectId :=
      match objGet cards e.1 with
      | some c => c.projectId
      | none => fallback
    (e.1, e.2.map (resolveRawVersion projectId)))

/-- `\x7b...project, title: project.title ?? 'Untitled project', thumbnailUrl:
project.thumbnailUrl ?? null\x7d` (BoardContext.tsx lines 110–114). -/
def resolveRawProject (project : RawProject) : Project :=
  { id := project.id
    title := project.title.getD "Untitled project"
    thumbnailUrl := project.thumbnailUrl
    lanes := project.lanes
    createdAt := project.createdAt
    updatedAt := project.updatedAt }

/-- `candidateProjectId` (BoardContext.tsx line 115):
`raw.activeProjectId ?? projects[0]?.id ?? null`. -/
def resolveCandidate (rawActiveProjectId : Option String)
    (projects : List Project) : Option String :=
  match rawActiveProjectId with
  | some pid => some pid
  | none => (projects.head?).map (fun p => p.id)

/-- `activeProjectId` (BoardContext.tsx lines 116–118): the candidate when it
names a project of the (resolved) list, else the first project's id, else
null. -/
def resolveActiveProjectId (rawActiveProjectId : Option String)
    (projects : List Project) : Option String :=
  if projects.any (fun project =>
      some project.id == resolveCandidate rawActiveProjectId projects) then
    resolveCandidate rawActiveProjectId projects
  else (projects.head?).map (fun p => p.id)

/-- `normalizeState` (BoardContext.tsx lines 108–196).  `now` models the
`new Date().toISOString()` calls and `fresh` the `generateId()` calls of
the defensive legacy defaults. -/
def normalizeState (now : String) (fresh : Nat → String) (raw : RawState) :
    BoardState :=
  match raw with
  | .multi rawProjects rawActiveProjectId rawCards rawCardVersions isLoading error =>
    let projects := rawProjects.map resolveRawProject
    let activeProjectId := resolveActiveProjectId rawActiveProjectId projects
    let cards := rawCards.map (fun e => (e.1, resolveRawCard activeProjectId e.2))
    let cardVersions :=
      resolveRawVersions cards (activeProjectId.getD "") (rawCardVersions.getD [])
    { projects := projects
      activeProjectId := activeProjectId
      cards := cards
      cardVersions := cardVersions
      isLoading := isLoading.getD false
      error := error }
  | .legacy project rawCards rawCardVersions isLoading error =>
    let normalizedProject : Project :=
      { id := project.id
        title := project.title.getD (project.name.getD "Untitled project")
        thumbnailUrl := none
        lanes := project.lanes.getD (createDefaultLanes fresh)
        createdAt := project.createdAt.getD now
        updatedAt := project.updatedAt.getD now }
    let cards := (rawCards.getD []).map (fun e =>
      (e.1, resolveRawCard (some normalizedProject.id) e.2))
    let cardVersions :=
      resolveRawVersions cards normalizedProject.id (rawCardVersions.getD [])
    { projects := [normalizedProject]
      activeProjectId := some normalizedProject.id
      cards := cards
      cardVersions := cardVersions
      isLoading := isLoading.getD false
      error := error }

/-! ## Re-serialization: a normalized `BoardState`, persisted and read back,
presents as a multi-project raw blob with every optional field present.
(JSON keeps `null` as `null`; `??` treats it like an absent field, so the
`Option` fields coincide.) -/

/-- A resolved card viewed as a raw card. -/
def Card.toRaw (c : Card) : RawCard :=
  { id := c.id
    projectId := some c.projectId
    title := c.title
    description := c.description
    type := c.type
    priority := c.priority
    dueDate := c.dueDate
    labels := c.labels
    assignee := c.assignee
    laneId := c.laneId
    order := c.order
    isDeleted := c.isDeleted
    createdAt := c.createdAt
    updatedAt := c.updatedAt }

/-- A resolved version snapshot viewed as a raw one. -/
def CardVersion.toRaw (v : CardVersion) : RawCardVersion :=
  { id := v.id
    cardId := v.cardId
    version := v.version
    data :=
      { projectId := some v.data.projectId
        title := v.data.title
        description := v.data.description
        type := v.data.type
        priority := v.data.priority
        dueDate := v.data.dueDate
        labels := v.data.labels
        assignee := v.data.assignee
        laneId := v.data.laneId
        order := v.data.order
        isDeleted := v.data.isDeleted
        createdAt := v.data.createdAt
        updatedAt := v.data.updatedAt }
    timestamp := v.timestamp }

/-- A resolved project viewed as a raw multi-project entry. -/
def Project.toRaw (p : Project) : RawProject :=
  { id := p.id
    title := some p.title
    thumbnailUrl := p.thumbnailUrl
    lanes := p.lanes
    createdAt := p.createdAt
    updatedAt := p.updatedAt }

/-- A whole normalized state viewed as a raw multi-project blob. -/
def BoardState.toRaw (s : BoardState) : RawState :=
  .multi (s.projects.map Project.toRaw) s.activeProjectId
    (s.cards.map (fun e => (e.1, e.2.toRaw)))
    (some (s.cardVersions.map (fun e => (e.1, e.2.map CardVersion.toRaw))))
    (some s.isLoading) s.error

/-! ## Observations used by the claims -/

/-- All `(projectId, laneId)` pairs of lanes whose `cardIds` contains the
given card id, in board order. -/
def lanesContaining (s : BoardState) (cid : String) : List (String × String) :=
  s.projects.flatMap (fun p =>
    (p.lanes.filter (fun l => l.cardIds.contains cid)).map (fun l => (p.id, l.id)))

/-- Invariant I1 (spec §3): every card with `isDeleted = false` appears in
exactly one lane's `cardIds` — the lane named by its own `laneId` inside
the project named by its own `projectId`. -/
def invariantI1 (s : BoardState) : Prop :=
  ∀ e ∈ s.cards, e.2.isDeleted = false →
    lanesContaining s e.1 = [(e.2.projectId, e.2.laneId)]

instance (s : BoardState) : Decidable (invariantI1 s) := by
  unfold invariantI1; infer_instance

/-- `cardVersions[id].length` with a missing entry counting as length 0. -/
def versionsLen (s : BoardState) (cid : String) : Nat :=
  ((objGet s.cardVersions cid).getD []).length

/-- The normalizer's output guarantee on `activeProjectId`: null only when
there is no project, otherwise the id of an existing project. -/
def activeConsistent (s : BoardState) : Prop :=
  match s.activeProjectId with
  | none => s.projects = []
  | some pid => s.projects.any (fun p => p.id == pid) = true

/-! ## Concrete sample states (used by counterexamples and witnesses) -/

/-- A deterministic id supply for concrete evaluations. -/
def sampleFresh : Nat → String := fun n => "gen" ++ toString n

/-- A lane `todo` holding the single card `c`. -/
def laneTodo : Lane := { id := "todo", title := "Todo", order := 0, cardIds := ["c"] }

/-- A second, empty lane. -/
def laneDoing : Lane := { id := "doing", title := "Doing", order := 1, cardIds := [] }

/-- The sample card `c`, not deleted, sitting in lane `todo` of project `P`. -/
def sampleCard : Card :=
  { id := "c", projectId := "P", title := "Write spec", description := "",
    type := .task, priority := .medium, dueDate := none, labels := [],
    assignee := none, laneId := "todo", order := 0, isDeleted := false,
    createdAt := "t0", updatedAt := "t0" }

/-- The sample project `P` with lanes `todo` (holding `c`) and `doing`. -/
def sampleProject : Project :=
  { id := "P", title := "Sample", thumbnailUrl := none,
    lanes := [laneTodo, laneDoing], createdAt := "t0", updatedAt := "t0" }

/-- A well-formed board: one project `P` (active), one card `c` in lane
`todo`, no version history. -/
def sampleState : BoardState :=
  { projects := [sampleProject], activeProjectId := some "P",
    cards := [("c", sampleCard)], cardVersions := [],
    isLoading := false, error := none }

/-- The sample board with `activeProjectId` cleared (card `c` still exists). -/
def sampleStateNoActive : BoardState := { sampleState with activeProjectId := none }

/-- A version list recorded under the key `ghost` although no card `ghost`
exists in `cards`. -/
def ghostVersion : CardVersion :=
  { id := "v1", cardId := "ghost", version := 1,
    data := { projectId := "P", title := "Ghost", description := "",
              type := .task, priority := .low, dueDate := none, labels := [],
              assignee := none, laneId := "todo", order := 0, isDeleted := false,
              createdAt := "t0", updatedAt := "t0" },
    timestamp := "t0" }

/-- The sample board extended with an orphan version history for the
non-existent card id `ghost`. -/
def sampleStateGhost : BoardState :=
  { sampleState with cardVersions := [("ghost", [ghostVersion])] }

/-- A raw multi-project card that already carries `projectId = "B"`. -/
def rawCardOfB : RawCard :=
  { id := "c", projectId := some "B", title := "Write spec", description := "",
    type := .task, priority := .medium, dueDate := none, labels := [],
    assignee := none, laneId := "todo", order := 0, isDeleted := false,
    createdAt := "t0", updatedAt := "t0" }

/-- A raw version snapshot for `c` whose `data.projectId` is missing. -/
def rawVersionNoProject : RawCardVersion :=
  { id := "v1", cardId := "c", version := 1,
    data := { projectId := none, title := "Write spec", description := "",
              type := .task, priority := .medium, dueDate := none, labels := [],
              assignee := none, laneId := "todo", order := 0, isDeleted := false,
              createdAt := "t0", updatedAt := "t0" },
    timestamp := "t0" }

/-- A raw project named by the resolved active project id `A`. -/
def rawProjectA : RawProject :=
  { id := "A", title := some "A", thumbnailUrl := none, lanes := [],
    createdAt := "t0", updatedAt := "t0" }

/-- A raw multi-project blob whose active project resolves to `A` while
card `c` carries its own `projectId = "B"` and its snapshot lacks one. -/
def rawMultiMixed : RawState :=
  .multi [rawProjectA] (some "A") [("c", rawCardOfB)]
    (some [("c", [rawVersionNoProject])]) none none

/-- Card `c1` in lane `A` of project `Q`. -/
def cardC1 : Card :=
  { id := "c1", projectId := "Q", title := "one", description := "",
    type := .task, priority := .medium, dueDate := none, labels := [],
    assignee := none, laneId := "A", order := 0, isDeleted := false,
    createdAt := "t0", updatedAt := "t0" }

/-- Card `c2` in lane `A` of project `Q`. -/
def cardC2 : Card := { cardC1 with id := "c2", title := "two", order := 1 }

/-- Lane `A` holding `[c1, c2]`. -/
def laneA : Lane := { id := "A", title := "A", order := 0, cardIds := ["c1", "c2"] }

/-- Lane `B`, empty. -/
def laneB : Lane := { id := "B", title := "B", order := 1, cardIds := [] }

/-- Project `Q` with lanes `[A(cards=[c1,c2]), B]` — the spec's cascade
scenario. -/
def cascadeProject : Project :=
  { id := "Q", title := "Cascade", thumbnailUrl := none,
    lanes := [laneA, laneB], createdAt := "t0", updatedAt := "t0" }

/-- Board for the DELETE_LANE cascade scenario. -/
def cascadeState : BoardState :=
  { projects := [cascadeProject], activeProjectId := some "Q",
    cards := [("c1", cardC1), ("c2", cardC2)], cardVersions := [],
    isLoading := false, error := none }

/-- A project with a single lane. -/
def projectOneLane : Project :=
  { id := "P", title := "Sample", thumbnailUrl := none,
    lanes := [{ id := "solo", title := "Todo", order := 0, cardIds := [] }],
    createdAt := "t0", updatedAt := "t0" }

/-- A board whose active project has exactly one lane and which holds
exactly one project. -/
def sampleStateOneLane : BoardState :=
  { projects := [projectOneLane], activeProjectId := some "P",
    cards := [], cardVersions := [], isLoading := false, error := none }

/-- A version snapshot of the sample card. -/
def sampleVersion : CardVersion := createCardVersion "v0" "t0" sampleCard []

/-- The sample board with one recorded version for card `c`. -/
def sampleStateWithVersion : BoardState :=
  { sampleState with cardVersions := [("c", [sampleVersion])] }

/-- The sample board with a version for `c` but no active project. -/
def sampleStateWithVersionNoActive : BoardState :=
  { sampleStateWithVersion with activeProjectId := none }

/-! ## Lemmas about the JS-object operations -/

theorem find?_map_set {α : Type} (m : List (String × α)) (k : String) (v : α)
    (h : m.any (fun e => e.1 == k) = true) :
    (m.map (fun e => if e.1 == k then (k, v) else e)).find? (fun e => e.1 == k)
      = some (k, v) := by
  induction m with
  | nil => simp at h
  | cons e es ih =>
    rw [List.map_cons]
    by_cases he : (e.1 == k) = true
    · rw [if_pos he]
      simp only [List.find?]
      simp
    · rw [if_neg he]
      simp only [List.find?]
      rw [Bool.not_eq_true] at he
      rw [he]
      apply ih
      rcases List.any_eq_true.mp h with ⟨x, hx, hpx⟩
      rcases List.mem_cons.mp hx with rfl | hx2
      · rw [hpx] at he; exact absurd he (by simp)
      · exact List.any_eq_true.mpr ⟨x, hx2, hpx⟩

theorem find?_map_set_ne {α : Type} (m : List (String × α)) (k q : String) (v : α)
    (hqk : q ≠ k) :
    (m.map (fun e => if e.1 == k then (k, v) else e)).find? (fun e => e.1 == q)
      = m.find? (fun e => e.1 == q) := by
  induction m with
  | nil => rfl
  | cons e es ih =>
    rw [List.map_cons]
    by_cases he : (e.1 == k) = true
    · have hek : e.1 = k := by simpa using he
      have h1 : (e.1 == q) = false := by
        rw [hek]; exact beq_false_of_ne (fun hh => hqk hh.symm)
      have h2 : ((k : String) == q) = false := beq_false_of_ne (fun hh => hqk hh.symm)
      rw [if_pos he]
      simp only [List.find?]
      rw [h1, h2, ih]
    · rw [if_neg he]
      simp only [List.find?]
      cases hq : (e.1 == q) with
      | true => rfl
      | false => exact ih

theorem objGet_objSet_self {α : Type} (m : List (String × α)) (k : String) (v : α) :
    objGet (objSet m k v) k = some v := by
  unfold objGet objSet
  by_cases h : m.any (fun e => e.1 == k) = true
  · rw [if_pos h, find?_map_set m k v h]
    rfl
  · rw [if_neg h, List.find?_append]
    have hn : m.find? (fun e => e.1 == k) = none := by
      rw [List.find?_eq_none]
      intro x hx hpx
      exact h (List.any_eq_true.mpr ⟨x, hx, hpx⟩)
    simp [hn, List.find?]

theorem objGet_objSet_ne {α : Type} (m : List (String × α)) (k q : String) (v : α)
    (h : q ≠ k) : objGet (objSet m k v) q = objGet m q := by
  unfold objGet objSet
  by_cases hm : m.any (fun e => e.1 == k) = true
  · rw [if_pos hm, find?_map_set_ne m k q v h]
  · rw [if_neg hm, List.find?_append]
    have h2 : ((k : String) == q) = false := beq_false_of_ne (fun hh => h hh.symm)
    simp [List.find?, h2]

/-! ## Lemmas about the active project -/

theorem mapActiveProject_none (s : BoardState) (f : Project → Project)
    (h : getActiveProject s = none) : mapActiveProject s f = none := by
  unfold mapActiveProject
  rw [h]

theorem mapActiveProject_some (s : BoardState) (f : Project → Project) (p : Project)
    (h : getActiveProject s = some p) :
    mapActiveProject s f
      = some (s.projects.map (fun q => if q.id == p.id then f p else q)) := by
  unfold mapActiveProject
  rw [h]

theorem find?_map_update (l : List Project) (pid : String) (p : Project)
    (f : Project → Project)
    (hfind : l.find? (fun q => q.id == pid) = some p) (hid : (f p).id = p.id) :
    (l.map (fun q => if q.id == p.id then f p else q)).find? (fun q => q.id == pid)
      = some (f p) := by
  have hp0 := List.find?_some hfind
  have hp : (p.id == pid) = true := by simpa using hp0
  induction l with
  | nil => simp at hfind
  | cons a l ih =>
    rw [List.map_cons]
    simp only [List.find?] at hfind
    by_cases ha : (a.id == pid) = true
    · rw [ha] at hfind
      have hap : a = p := by simpa using hfind
      subst hap
      rw [if_pos (by simp)]
      simp only [List.find?]
      rw [hid, hp]
    · rw [Bool.not_eq_true] at ha
      rw [ha] at hfind
      have hane : (a.id == p.id) = false := by
        rcases Bool.eq_false_or_eq_true (a.id == p.id) with hh | hh
        · exfalso
          have h1 : a.id = p.id := by simpa using hh
          have h2 : p.id = pid := by simpa using hp
          have h3 : (a.id == pid) = true := by rw [h1, h2]; simp
          rw [h3] at ha
          simp at ha
        · exact hh
      rw [if_neg (by simp [hane])]
      simp only [List.find?]
      rw [ha]
      exact ih hfind

/-- `getActiveProject` after replacing the projects list by the
`mapActiveProject` image of an id-preserving updater. -/
theorem getActiveProject_update (s s2 : BoardState) (p : Project) (f : Project → Project)
    (h : getActiveProject s = some p) (hid : (f p).id = p.id)
    (ha : s2.activeProjectId = s.activeProjectId)
    (hp : s2.projects = s.projects.map (fun q => if q.id == p.id then f p else q)) :
    getActiveProject s2 = some (f p) := by
  unfold getActiveProject at h ⊢
  rw [ha, hp]
  cases hA : s.activeProjectId with
  | none =>
    rw [hA] at h
    have h2 : (none : Option Project) = some p := h
    exact absurd h2 (by simp)
  | some pid =>
    rw [hA] at h
    have h2 : (if (pid == "") = true then none
        else s.projects.find? (fun project => project.id == pid)) = some p := h
    by_cases he : (pid == "") = true
    · rw [if_pos he] at h2
      exact absurd h2 (by simp)
    · rw [if_neg he] at h2
      show (if (pid == "") = true then none
        else (s.projects.map (fun q => if q.id == p.id then f p else q)).find?
          (fun project => project.id == pid)) = some (f p)
      rw [if_neg he]
      exact find?_map_update s.projects pid p f h2 hid

/-- Looking a key up after DELETE_LANE's reassignment loop: keys listed in
`ids` (and present) come back with `laneId`/`updatedAt` rewritten, all other
keys are untouched. -/
theorem objGet_foldl_reassign (nl nw : String) :
    ∀ (ids : List String) (m : List (String × Card)) (k : String),
      objGet (ids.foldl (reassignCardLane nl nw) m) k
        = if k ∈ ids then
            (objGet m k).map (fun c => { c with laneId := nl, updatedAt := nw })
          else objGet m k := by
  intro ids
  induction ids with
  | nil => intro m k; simp
  | cons a as ih =>
    intro m k
    rw [List.foldl_cons, ih]
    by_cases hka : k = a
    · subst hka
      have hstep : objGet (reassignCardLane nl nw m k) k
          = (objGet m k).map (fun c => { c with laneId := nl, updatedAt := nw }) := by
        unfold reassignCardLane
        cases hg : objGet m k with
        | none => simp only [hg, Option.map_none']
        | some c => simp only [hg, objGet_objSet_self, Option.map_some']
      by_cases hmem : k ∈ as
      · rw [if_pos hmem, if_pos (List.mem_cons_self k as), hstep]
        cases hg : objGet m k with
        | none => simp
        | some c => simp
      · rw [if_neg hmem, if_pos (List.mem_cons_self k as), hstep]
    · have hstep : objGet (reassignCardLane nl nw m a) k = objGet m k := by
        unfold reassignCardLane
        cases hg : objGet m a with
        | none => rfl
        | some c => exact objGet_objSet_ne m a k _ hka
      rw [hstep]
      by_cases hmem : k ∈ as
      · rw [if_pos hmem, if_pos (List.mem_cons_of_mem a hmem)]
      · rw [if_neg hmem, if_neg (by simp [hka, hmem])]

/-- Renumbering lanes after a deletion: when the first remaining lane's id
occurs nowhere in the tail, the id test in DELETE_LANE's map reduces to pure
renumbering on the tail. -/
theorem enumFrom_map_deleteLane (fid : String) (extra : List String) :
    ∀ (rest : List Lane) (n : Nat),
      (∀ l ∈ rest, (l.id == fid) = false) →
      (rest.enumFrom n).map (fun e =>
          if e.2.id == fid then
            { e.2 with cardIds := e.2.cardIds ++ extra, order := (e.1 : Int) }
          else { e.2 with order := (e.1 : Int) })
        = (rest.enumFrom n).map (fun e => { e.2 with order := (e.1 : Int) }) := by
  intro rest
  induction rest with
  | nil => intro n hf; rfl
  | cons a as ih =>
    intro n hf
    show (((n, a)) :: as.enumFrom (n + 1)).map _
      = ((n, a) :: as.enumFrom (n + 1)).map _
    rw [List.map_cons, List.map_cons]
    rw [if_neg (by simp [hf a (List.mem_cons_self a as)])]
    rw [ih (n + 1) (fun l hl => hf l (List.mem_cons_of_mem a hl))]

/-! ## Normalizer lemmas -/

/-- The two-step candidate/containment dance of BoardContext.tsx lines
115–118 equals the spec's three-way description: keep a raw value naming an
existing project, else fall back to the first project's id, else null. -/
theorem resolveActive_spec (rawActive : Option String) (projects : List Project) :
    resolveActiveProjectId rawActive projects
      = match rawActive with
        | some pid =>
          if projects.any (fun p => p.id == pid) then some pid
          else (projects.head?).map (fun p => p.id)
        | none => (projects.head?).map (fun p => p.id) := by
  cases rawActive with
  | some pid =>
    simp only [resolveActiveProjectId, resolveCandidate]
    have hc : (projects.any (fun project => some project.id == some pid))
        = (projects.any (fun p => p.id == pid)) := rfl
    rw [hc]
  | none =>
    simp only [resolveActiveProjectId, resolveCandidate]
    cases projects with
    | nil => rfl
    | cons q qs => simp

/-- The resolved active id, when null, indicates an empty project list and,
when non-null, names a project of the list. -/
theorem resolveActive_consistent (rawActive : Option String) (projects : List Project) :
    match resolveActiveProjectId rawActive projects with
    | none => projects = []
    | some pid => projects.any (fun p => p.id == pid) = true := by
  unfold resolveActiveProjectId
  by_cases h : (projects.any (fun project =>
      some project.id == resolveCandidate rawActive projects)) = true
  · rw [if_pos h]
    rcases List.any_eq_true.mp h with ⟨q, hq, hbeq⟩
    cases hcand : resolveCandidate rawActive projects with
    | none =>
      rw [hcand] at hbeq
      exact Bool.noConfusion hbeq
    | some b =>
      have hqb : (q.id == b) = true := by rw [hcand] at hbeq; exact hbeq
      exact List.any_eq_true.mpr ⟨q, hq, hqb⟩
  · rw [if_neg h]
    cases projects with
    | nil => exact rfl
    | cons q qs => exact (by simp : (q :: qs).any (fun p => p.id == q.id) = true)

/-- Resolution is the identity on an already-consistent pair. -/
theorem resolveActive_of_consistent (apid : Option String) (projects : List Project)
    (h : match apid with
         | none => projects = []
         | some pid => projects.any (fun p => p.id == pid) = true) :
    resolveActiveProjectId apid projects = apid := by
  cases apid with
  | none =>
    have h2 : projects = [] := h
    rw [h2]
    rfl
  | some pid =>
    have h2 : projects.any (fun p => p.id == pid) = true := h
    have hany : (projects.any (fun project =>
        some project.id == resolveCandidate (some pid) projects)) = true := h2
    unfold resolveActiveProjectId
    rw [if_pos hany]
    rfl

/-- Re-reading a normalized state through the multi-project branch changes
nothing provided `activeProjectId` is consistent. -/
theorem normalizeState_toRaw (now : String) (fresh : Nat → String) (s : BoardState)
    (h : activeConsistent s) :
    normalizeState now fresh s.toRaw = s := by
  obtain ⟨projects, activeProjectId, cards, cardVersions, isLoading, error⟩ := s
  unfold activeConsistent at h
  simp only [normalizeState, BoardState.toRaw]
  have hproj : (projects.map Project.toRaw).map resolveRawProject = projects := by
    rw [List.map_map]
    exact (List.map_congr_left fun e he => rfl).trans (List.map_id' _)
  rw [hproj]
  have hactive : resolveActiveProjectId activeProjectId projects = activeProjectId :=
    resolveActive_of_consistent activeProjectId projects h
  rw [hactive]
  have hcards : (cards.map (fun e => (e.1, e.2.toRaw))).map
      (fun e => (e.1, resolveRawCard activeProjectId e.2)) = cards := by
    rw [List.map_map]
    exact (List.map_congr_left fun e he => rfl).trans (List.map_id' _)
  rw [hcards]
  have hvers : ∀ (pid : String) (vs : List CardVersion),
      (vs.map CardVersion.toRaw).map (resolveRawVersion pid) = vs := by
    intro pid vs
    rw [List.map_map]
    exact (List.map_congr_left fun v hv => rfl).trans (List.map_id' _)
  have hcardVersions : resolveRawVersions cards (activeProjectId.getD "")
      ((some (cardVersions.map (fun e => (e.1, e.2.map CardVersion.toRaw)))).getD [])
        = cardVersions := by
    simp only [Option.getD_some]
    unfold resolveRawVersions
    rw [List.map_map]
    refine (List.map_congr_left fun e he => ?_).trans (List.map_id' _)
    show (e.1, ((e.2.map CardVersion.toRaw)).map (resolveRawVersion _)) = e
    rw [hvers _ e.2]
  rw [hcardVersions]
  rfl

/-- Normalized output always has a consistent `activeProjectId`. -/
theorem normalizeState_activeConsistent (now : String) (fresh : Nat → String)
    (raw : RawState) : activeConsistent (normalizeState now fresh raw) := by
  cases raw with
  | legacy project cards versions isLoading error =>
    simp [normalizeState, activeConsistent]
  | multi rawProjects rawActive rawCards rawVers isLoading error =>
    simp only [normalizeState, activeConsistent]
    exact resolveActive_consistent rawActive _

/-! ## Characterizations of single reducer cases -/

theorem boardReducer_updateCard (now : String) (fresh : Nat → String) (s : BoardState)
    (id : String) (patch : CardPatch) (c : Card) (p : Project)
    (h1 : objGet s.cards id = some c) (h2 : getActiveProject s = some p) :
    boardReducer now fresh s (.updateCard id patch)
      = { s with
          cards := objSet s.cards id (applyCardPatch c patch now)
          cardVersions := objSet s.cardVersions id
            (((objGet s.cardVersions id).getD [])
              ++ [createCardVersion (fresh 0) now c ((objGet s.cardVersions id).getD [])])
          projects := s.projects.map (fun q =>
            if q.id == p.id then { p with updatedAt := now } else q) } := by
  simp only [boardReducer]
  rw [h1, mapActiveProject_some s _ p h2]

theorem boardReducer_deleteCard (now : String) (fresh : Nat → String) (s : BoardState)
    (id : String) (c : Card) (p : Project)
    (h1 : objGet s.cards id = some c) (h2 : getActiveProject s = some p) :
    boardReducer now fresh s (.deleteCard id)
      = { s with
          cards := objSet s.cards id { c with isDeleted := true, updatedAt := now }
          cardVersions := objSet s.cardVersions id
            (((objGet s.cardVersions id).getD [])
              ++ [createCardVersion (fresh 0) now c ((objGet s.cardVersions id).getD [])])
          projects := s.projects.map (fun q =>
            if q.id == p.id then
              { p with
                lanes := p.lanes.map (fun lane =>
                  if lane.id == c.laneId then
                    { lane with cardIds := lane.cardIds.filter (fun cardId => cardId != id) }
                  else lane)
                updatedAt := now }
            else q) } := by
  simp only [boardReducer]
  simp only [h1, h2]
  rw [mapActiveProject_some s _ p h2]
  rfl

theorem boardReducer_moveCard (now : String) (fresh : Nat → String) (s : BoardState)
    (cardId toLaneId : String) (toIndex : Int) (c : Card) (p : Project)
    (h1 : objGet s.cards cardId = some c) (h2 : getActiveProject s = some p) :
    boardReducer now fresh s (.moveCard cardId toLaneId toIndex)
      = { s with
          cards := objSet s.cards cardId { c with laneId := toLaneId, updatedAt := now }
          cardVersions := objSet s.cardVersions cardId
            (((objGet s.cardVersions cardId).getD [])
              ++ [createCardVersion (fresh 0) now c ((objGet s.cardVersions cardId).getD [])])
          projects := s.projects.map (fun q =>
            if q.id == p.id then
              { p with
                lanes := p.lanes.map (fun lane =>
                  if lane.id == c.laneId && c.laneId != toLaneId then
                    { lane with cardIds := lane.cardIds.filter (fun id => id != cardId) }
                  else if lane.id == toLaneId then
                    { lane with cardIds :=
                        spliceInsert (lane.cardIds.filter (fun id => id != cardId)) toIndex cardId }
                  else lane)
                updatedAt := now }
            else q) } := by
  simp only [boardReducer]
  simp only [h1, h2]
  rw [mapActiveProject_some s _ p h2]
  rfl

theorem boardReducer_undoCard (now : String) (fresh : Nat → String) (s : BoardState)
    (cid : String) (vs : List CardVersion) (v : CardVersion) (p : Project)
    (hv : objGet s.cardVersions cid = some vs)
    (hlast : vs.getLast? = some v)
    (hp : getActiveProject s = some p) :
    boardReducer now fresh s (.undoCard cid)
      = (let restoredCard : Card :=
          { id := cid
            projectId := v.data.projectId
            title := v.data.title
            description := v.data.description
            type := v.data.type
            priority := v.data.priority
            dueDate := v.data.dueDate
            labels := v.data.labels
            assignee := v.data.assignee
            laneId := v.data.laneId
            order := v.data.order
            isDeleted := v.data.isDeleted
            createdAt := v.data.createdAt
            updatedAt := now }
         let updatedLanes :=
          match objGet s.cards cid with
          | some c =>
            if c.laneId != restoredCard.laneId then
              p.lanes.map (fun lane =>
                if lane.id == c.laneId then
                  { lane with cardIds := lane.cardIds.filter (fun id => id != cid) }
                else if lane.id == restoredCard.laneId then
                  { lane with cardIds := lane.cardIds ++ [cid] }
                else lane)
            else p.lanes
          | none => p.lanes
         { s with
            cards := objSet s.cards cid restoredCard
            cardVersions := objSet s.cardVersions cid vs.dropLast
            projects := s.projects.map (fun q =>
              if q.id == p.id then { p with lanes := updatedLanes, updatedAt := now }
              else q) }) := by
  have hne : vs ≠ [] := by
    intro hnil
    rw [hnil] at hlast
    cases hlast
  have hlen : ¬((vs.length == 0) = true) := by
    simp only [beq_iff_eq, List.length_eq_zero]
    exact hne
  simp only [boardReducer]
  simp only [hv]
  rw [if_neg hlen]
  simp only [hlast, hp]
  rw [mapActiveProject_some s _ p hp]
  rfl

/-! ## Claim theorems -/

/-- C1: the spec claims invariant I1 (every non-deleted card sits in exactly
one lane's cardIds — the one named by its own laneId/projectId) is preserved
by every valid transition.  The code violates it: on a well-formed board
satisfying I1, DELETE_CARD `c` followed by UNDO_CARD `c` yields a card with
`isDeleted = false` that appears in no lane at all, because UNDO_CARD only
repairs lane membership when the restored `laneId` differs from the current
one and never re-inserts a card whose deletion it reverts. -/
theorem deleteCard_then_undoCard_breaks_invariantI1 :
    invariantI1 sampleState ∧
    invariantI1 (boardReducer "t1" sampleFresh sampleState (.deleteCard "c")) ∧
    (objGet (boardReducer "t2" sampleFresh
        (boardReducer "t1" sampleFresh sampleState (.deleteCard "c"))
        (.undoCard "c")).cards "c").map (fun c => c.isDeleted) = some false ∧
    lanesContaining (boardReducer "t2" sampleFresh
        (boardReducer "t1" sampleFresh sampleState (.deleteCard "c"))
        (.undoCard "c")) "c" = [] ∧
    ¬ invariantI1 (boardReducer "t2" sampleFresh
        (boardReducer "t1" sampleFresh sampleState (.deleteCard "c"))
        (.undoCard "c")) := by
  decide

/-- C4: with an active project holding exactly one lane, DELETE_LANE only
sets the fixed error message and changes nothing else; with exactly one
project, DELETE_PROJECT of it likewise only sets the analogous error. -/
theorem lastLane_lastProject_deletion_only_sets_error
    (now : String) (fresh : Nat → String) (s : BoardState) :
    (∀ p lid, getActiveProject s = some p → p.lanes.length = 1 →
      boardReducer now fresh s (.deleteLane lid)
        = { s with error := some "Cannot delete the last lane" }) ∧
    (∀ q, s.projects = [q] →
      boardReducer now fresh s (.deleteProject q.id)
        = { s with error := some "Cannot delete the last project" }) := by
  constructor
  · intro p lid h1 h2
    simp only [boardReducer, h1]
    rw [if_pos (by simp [h2])]
  · intro q hq
    simp only [boardReducer]
    rw [hq]
    have hf : ([q].filter (fun project => project.id != q.id)) = [] := by simp
    rw [hf]
    simp

/-- Witness for C4 at a concrete one-lane, one-project board. -/
theorem lastLane_lastProject_deletion_only_sets_error_witness :
    boardReducer "t1" sampleFresh sampleStateOneLane (.deleteLane "solo")
      = { sampleStateOneLane with error := some "Cannot delete the last lane" } ∧
    boardReducer "t1" sampleFresh sampleStateOneLane (.deleteProject "P")
      = { sampleStateOneLane with error := some "Cannot delete the last project" } :=
  ⟨(lastLane_lastProject_deletion_only_sets_error "t1" sampleFresh sampleStateOneLane).1
      projectOneLane "solo" (by decide) (by decide),
   (lastLane_lastProject_deletion_only_sets_error "t1" sampleFresh sampleStateOneLane).2
      projectOneLane (by decide)⟩

/-- C9: every card-level mutation additionally requires an active project:
when `activeProjectId` is null or names no existing project, UPDATE_CARD,
DELETE_CARD, MOVE_CARD and UNDO_CARD return the input state unchanged, even
when the named card exists and (for UNDO_CARD) its history is non-empty. -/
theorem cardMutations_noop_without_activeProject
    (now : String) (fresh : Nat → String) (s : BoardState)
    (h : getActiveProject s = none) :
    (∀ id patch, boardReducer now fresh s (.updateCard id patch) = s) ∧
    (∀ id, boardReducer now fresh s (.deleteCard id) = s) ∧
    (∀ cid lid idx, boardReducer now fresh s (.moveCard cid lid idx) = s) ∧
    (∀ cid, boardReducer now fresh s (.undoCard cid) = s) := by
  have hm : ∀ f, mapActiveProject s f = none := fun f => mapActiveProject_none s f h
  refine ⟨fun id patch => ?_, fun id => ?_, fun cid lid idx => ?_, fun cid => ?_⟩
  · simp only [boardReducer]
    cases hc : objGet s.cards id with
    | none => simp only [hc]
    | some c => simp only [hc, hm]
  · simp only [boardReducer]
    cases hc : objGet s.cards id with
    | none => simp only [hc]
    | some c => simp only [hc, h]
  · simp only [boardReducer]
    cases hc : objGet s.cards cid with
    | none => simp only [hc]
    | some c => simp only [hc, h]
  · simp only [boardReducer]
    cases hcv : objGet s.cardVersions cid with
    | none => simp only [hcv]
    | some vs =>
      simp only [hcv]
      cases hl : (vs.length == 0) with
      | true => simp [hl]
      | false =>
        rw [if_neg (by simp [hl])]
        cases hg : vs.getLast? with
        | none => simp only [hg]
        | some v => simp only [hg, h]

/-- Witness for C9: a board with no active project, an existing card `c`
and a non-empty version history for `c`. -/
theorem cardMutations_noop_without_activeProject_witness :
    boardReducer "t1" sampleFresh sampleStateWithVersionNoActive (.updateCard "c" {})
      = sampleStateWithVersionNoActive ∧
    boardReducer "t1" sampleFresh sampleStateWithVersionNoActive (.deleteCard "c")
      = sampleStateWithVersionNoActive ∧
    boardReducer "t1" sampleFresh sampleStateWithVersionNoActive (.moveCard "c" "doing" 0)
      = sampleStateWithVersionNoActive ∧
    boardReducer "t1" sampleFresh sampleStateWithVersionNoActive (.undoCard "c")
      = sampleStateWithVersionNoActive :=
  have h := cardMutations_noop_without_activeProject "t1" sampleFresh
    sampleStateWithVersionNoActive (by decide)
  ⟨h.1 "c" {}, h.2.1 "c", h.2.2.1 "c" "doing" 0, h.2.2.2 "c"⟩

/-- C10: DELETE_LANE checks the lane count before lane existence: with an
active project holding exactly one lane, any id — here one naming no lane of
that project — still produces the last-lane error rather than the silent
unchanged-state no-op used for non-existent entities. -/
theorem deleteLane_count_checked_before_existence
    (now : String) (fresh : Nat → String) (s : BoardState) (p : Project) (lid : String)
    (h1 : getActiveProject s = some p) (h2 : p.lanes.length = 1)
    (h3 : ∀ l ∈ p.lanes, l.id ≠ lid) :
    boardReducer now fresh s (.deleteLane lid)
      = { s with error := some "Cannot delete the last lane" } := by
  simp only [boardReducer, h1]
  rw [if_pos (by simp [h2])]

/-- Witness for C10 with the bogus lane id `nope`. -/
theorem deleteLane_count_checked_before_existence_witness :
    boardReducer "t1" sampleFresh sampleStateOneLane (.deleteLane "nope")
      = { sampleStateOneLane with error := some "Cannot delete the last lane" } :=
  deleteLane_count_checked_before_existence "t1" sampleFresh sampleStateOneLane
    projectOneLane "nope" (by decide) (by decide) (by decide)

/-- C5 counterexample: both clauses of the claim fail on the code.  First,
UNDO_CARD naming a non-existent card is not a silent no-op: with an orphan
version history under that id the reducer resurrects the card.  Second,
the reducer is not total: one UPDATE_LANE id collision away from a
well-formed board, DELETE_LANE reaches an empty remainder and reads
`firstLane.id` of `undefined` (a listed card exists), throwing a
TypeError. -/
theorem reducer_neither_silent_nor_total :
    objGet sampleStateGhost.cards "ghost" = none ∧
    boardReducer "t1" sampleFresh sampleStateGhost (.undoCard "ghost")
      ≠ sampleStateGhost ∧
    (objGet (boardReducer "t1" sampleFresh sampleStateGhost
        (.undoCard "ghost")).cards "ghost").isSome = true ∧
    boardReducerThrows
      (boardReducer "t1" sampleFresh sampleState
        (.updateLane "doing" { id := some "todo" }))
      (.deleteLane "todo") = true := by
  decide

/-- C5 (amended): the reducer returns the input state itself, with no error
set, for UPDATE_CARD/DELETE_CARD/MOVE_CARD naming a non-existent card, for
UNDO_CARD on a card with an empty (or missing) version history — UNDO's
actual precondition — and for an unrecognized action; and no action other
than DELETE_LANE can make the code throw. -/
theorem reducer_noop_on_failed_preconditions
    (now : String) (fresh : Nat → String) (s : BoardState) :
    (∀ id patch, objGet s.cards id = none →
      boardReducer now fresh s (.updateCard id patch) = s) ∧
    (∀ id, objGet s.cards id = none → boardReducer now fresh s (.deleteCard id) = s) ∧
    (∀ cid lid idx, objGet s.cards cid = none →
      boardReducer now fresh s (.moveCard cid lid idx) = s) ∧
    (∀ cid, versionsLen s cid = 0 → boardReducer now fresh s (.undoCard cid) = s) ∧
    boardReducer now fresh s .unknown = s ∧
    (∀ a, boardReducerThrows s a = true → ∃ lid, a = BoardAction.deleteLane lid) := by
  refine ⟨fun id patch h => ?_, fun id h => ?_, fun cid lid idx h => ?_,
    fun cid h => ?_, rfl, fun a h => ?_⟩
  · simp only [boardReducer, h]
  · simp only [boardReducer, h]
  · simp only [boardReducer, h]
  · simp only [boardReducer]
    cases hcv : objGet s.cardVersions cid with
    | none => simp only [hcv]
    | some vs =>
      unfold versionsLen at h
      rw [hcv] at h
      simp only [hcv]
      rw [if_pos (by simpa using h)]
  · cases a with
    | addCard payload => exact Bool.noConfusion h
    | updateCard id updates => exact Bool.noConfusion h
    | deleteCard id => exact Bool.noConfusion h
    | restoreCard id => exact Bool.noConfusion h
    | moveCard cardId toLaneId toIndex => exact Bool.noConfusion h
    | reorderCards laneId cardIds => exact Bool.noConfusion h
    | undoCard cardId => exact Bool.noConfusion h
    | addLane title => exact Bool.noConfusion h
    | updateLane id updates => exact Bool.noConfusion h
    | deleteLane id => exact ⟨id, rfl⟩
    | reorderLanes laneIds => exact Bool.noConfusion h
    | addProject title thumbnailUrl => exact Bool.noConfusion h
    | updateProject id updates => exact Bool.noConfusion h
    | deleteProject id => exact Bool.noConfusion h
    | setActiveProject id => exact Bool.noConfusion h
    | loadState payload => exact Bool.noConfusion h
    | setError message => exact Bool.noConfusion h
    | unknown => exact Bool.noConfusion h

/-- C6: DELETE_LANE of lane L in a project with more than one lane (and
distinct lane ids): every card of L present in the map gets `laneId` set to
the first remaining lane and `updatedAt` refreshed; the first remaining lane
receives L's cardIds appended at its tail in order and order 0; every other
remaining lane keeps its cardIds and is renumbered to its position. -/
theorem deleteLane_cascade (now : String) (fresh : Nat → String) (s : BoardState)
    (p : Project) (lid : String) (L f : Lane) (rest : List Lane)
    (h1 : getActiveProject s = some p)
    (h2 : (p.lanes.map (fun l => l.id)).Nodup)
    (h3 : p.lanes.find? (fun l => l.id == lid) = some L)
    (h4 : 2 ≤ p.lanes.length)
    (h5 : p.lanes.filter (fun l => l.id != lid) = f :: rest) :
    (∀ cid ∈ L.cardIds, ∀ c, objGet s.cards cid = some c →
      objGet (boardReducer now fresh s (.deleteLane lid)).cards cid
        = some { c with laneId := f.id, updatedAt := now }) ∧
    getActiveProject (boardReducer now fresh s (.deleteLane lid))
      = some { p with
          lanes := { f with cardIds := f.cardIds ++ L.cardIds, order := (0 : Int) }
            :: (rest.enumFrom 1).map (fun e => { e.2 with order := (e.1 : Int) })
          updatedAt := now } := by
  have hred : boardReducer now fresh s (.deleteLane lid)
      = { s with
          cards := L.cardIds.foldl (reassignCardLane f.id now) s.cards
          projects := s.projects.map (fun q =>
            if q.id == p.id then
              { p with
                lanes := (f :: rest).enum.map (fun e =>
                  if e.2.id == f.id then
                    { e.2 with cardIds := e.2.cardIds ++ L.cardIds, order := (e.1 : Int) }
                  else { e.2 with order := (e.1 : Int) })
                updatedAt := now }
            else q) } := by
    simp only [boardReducer, h1]
    rw [if_neg (by omega)]
    simp only [h3, h5]
    rw [mapActiveProject_some s _ p h1]
    rfl
  have hsub : (f :: rest).Sublist p.lanes := by
    rw [← h5]
    exact List.filter_sublist p.lanes
  have hnodup : ((f :: rest).map (fun l => l.id)).Nodup :=
    List.Nodup.sublist (List.Sublist.map _ hsub) h2
  have hf : ∀ l ∈ rest, (l.id == f.id) = false := by
    intro l hl
    have hfn : f.id ∉ rest.map (fun l => l.id) := (List.nodup_cons.mp hnodup).1
    exact beq_false_of_ne (fun he => hfn (he ▸ List.mem_map_of_mem _ hl))
  constructor
  · intro cid hcid c hc
    rw [hred]
    show objGet (L.cardIds.foldl (reassignCardLane f.id now) s.cards) cid = _
    rw [objGet_foldl_reassign f.id now L.cardIds s.cards cid, if_pos hcid, hc]
    rfl
  · have hlanes : (f :: rest).enum.map (fun e =>
          if e.2.id == f.id then
            { e.2 with cardIds := e.2.cardIds ++ L.cardIds, order := (e.1 : Int) }
          else { e.2 with order := (e.1 : Int) })
        = { f with cardIds := f.cardIds ++ L.cardIds, order := (0 : Int) }
          :: (rest.enumFrom 1).map (fun e => { e.2 with order := (e.1 : Int) }) := by
      show (((0 : Nat), f) :: rest.enumFrom 1).map _ = _
      simp only [List.map_cons]
      rw [if_pos (by simp)]
      rw [enumFrom_map_deleteLane f.id L.cardIds rest 1 hf]
      rfl
    rw [hred, hlanes]
    exact getActiveProject_update s _ p
      (fun q => { q with
        lanes := { f with cardIds := f.cardIds ++ L.cardIds, order := (0 : Int) }
          :: (rest.enumFrom 1).map (fun e => { e.2 with order := (e.1 : Int) })
        updatedAt := now }) h1 rfl rfl rfl

/-- Witness for C6 on the spec's cascade scenario: lanes `[A([c1,c2]), B]`,
deleting `A`. -/
theorem deleteLane_cascade_witness :
    objGet (boardReducer "t1" sampleFresh cascadeState (.deleteLane "A")).cards "c1"
      = some { cardC1 with laneId := "B", updatedAt := "t1" } ∧
    objGet (boardReducer "t1" sampleFresh cascadeState (.deleteLane "A")).cards "c2"
      = some { cardC2 with laneId := "B", updatedAt := "t1" } ∧
    getActiveProject (boardReducer "t1" sampleFresh cascadeState (.deleteLane "A"))
      = some { cascadeProject with
          lanes := [{ laneB with cardIds := ["c1", "c2"], order := 0 }]
          updatedAt := "t1" } :=
  have h := deleteLane_cascade "t1" sampleFresh cascadeState cascadeProject "A"
    laneA laneB [] (by decide) (by decide) (by decide) (by decide) (by decide)
  ⟨h.1 "c1" (by decide) cardC1 (by decide), h.1 "c2" (by decide) cardC2 (by decide),
   h.2⟩

/-- C2 counterexample: the claim says UPDATE_CARD on any card present in
`cards` grows its version history by one, but with no active project the
reducer returns the state unchanged and appends nothing. -/
theorem updateCard_no_version_without_activeProject :
    (objGet sampleStateNoActive.cards "c").isSome = true ∧
    boardReducer "t1" sampleFresh sampleStateNoActive (.updateCard "c" {})
      = sampleStateNoActive ∧
    versionsLen (boardReducer "t1" sampleFresh sampleStateNoActive
        (.updateCard "c" {})) "c" = 0 ∧
    ¬ (versionsLen (boardReducer "t1" sampleFresh sampleStateNoActive
        (.updateCard "c" {})) "c" = versionsLen sampleStateNoActive "c" + 1) := by
  decide

/-- C2 (amended): provided the card is present and an active project exists,
UPDATE_CARD, DELETE_CARD and MOVE_CARD each grow `cardVersions[id]` by
exactly one, UNDO_CARD shrinks it by exactly one when it is non-empty and is
a no-op at length 0, while ADD_CARD and RESTORE_CARD leave the whole
`cardVersions` map unchanged. -/
theorem versionHistory_length_changes (now : String) (fresh : Nat → String)
    (s : BoardState) (id : String) (c : Card) (p : Project)
    (h1 : objGet s.cards id = some c) (h2 : getActiveProject s = some p) :
    (∀ patch, versionsLen (boardReducer now fresh s (.updateCard id patch)) id
      = versionsLen s id + 1) ∧
    versionsLen (boardReducer now fresh s (.deleteCard id)) id
      = versionsLen s id + 1 ∧
    (∀ lid idx, versionsLen (boardReducer now fresh s (.moveCard id lid idx)) id
      = versionsLen s id + 1) ∧
    (0 < versionsLen s id →
      versionsLen (boardReducer now fresh s (.undoCard id)) id
        = versionsLen s id - 1) ∧
    (versionsLen s id = 0 → boardReducer now fresh s (.undoCard id) = s) ∧
    (∀ payload, (boardReducer now fresh s (.addCard payload)).cardVersions
      = s.cardVersions) ∧
    (boardReducer now fresh s (.restoreCard id)).cardVersions = s.cardVersions := by
  refine ⟨fun patch => ?_, ?_, fun lid idx => ?_, fun hpos => ?_, fun h0 => ?_,
    fun payload => ?_, ?_⟩
  · rw [boardReducer_updateCard now fresh s id patch c p h1 h2]
    unfold versionsLen
    rw [objGet_objSet_self]
    simp
  · rw [boardReducer_deleteCard now fresh s id c p h1 h2]
    unfold versionsLen
    rw [objGet_objSet_self]
    simp
  · rw [boardReducer_moveCard now fresh s id lid idx c p h1 h2]
    unfold versionsLen
    rw [objGet_objSet_self]
    simp
  · cases hcv : objGet s.cardVersions id with
    | none =>
      exfalso
      unfold versionsLen at hpos
      rw [hcv] at hpos
      simp at hpos
    | some vs =>
      have hne : vs ≠ [] := by
        intro hnil
        unfold versionsLen at hpos
        rw [hcv, hnil] at hpos
        simp at hpos
      obtain ⟨v, hv⟩ := Option.isSome_iff_exists.mp (List.getLast?_isSome.mpr hne)
      rw [boardReducer_undoCard now fresh s id vs v p hcv hv h2]
      unfold versionsLen
      rw [objGet_objSet_self, hcv]
      simp [List.length_dropLast]
  · simp only [boardReducer]
    cases hcv : objGet s.cardVersions id with
    | none => simp only [hcv]
    | some vs =>
      have hnil : vs = [] := by
        unfold versionsLen at h0
        rw [hcv] at h0
        simpa using h0
      subst hnil
      simp only [hcv]
      rw [if_pos (by simp)]
  · simp only [boardReducer, h2]
    rw [mapActiveProject_some s _ p h2]
  · simp only [boardReducer, h1, h2]
    cases hd : c.isDeleted with
    | false => simp
    | true => simp

/-- Witness for C2 on the sample board carrying one version for `c`. -/
theorem versionHistory_length_changes_witness :
    versionsLen (boardReducer "t1" sampleFresh sampleStateWithVersion
      (.updateCard "c" {})) "c" = 2 ∧
    versionsLen (boardReducer "t1" sampleFresh sampleStateWithVersion
      (.deleteCard "c")) "c" = 2 ∧
    versionsLen (boardReducer "t1" sampleFresh sampleStateWithVersion
      (.moveCard "c" "doing" 0)) "c" = 2 ∧
    versionsLen (boardReducer "t1" sampleFresh sampleStateWithVersion
      (.undoCard "c")) "c" = 0 ∧
    (boardReducer "t1" sampleFresh sampleStateWithVersion
      (.addCard { title := "n", description := "", type := .task,
                  priority := .low, dueDate := none, labels := [],
                  assignee := none, laneId := "todo", order := 1 })).cardVersions
      = sampleStateWithVersion.cardVersions ∧
    (boardReducer "t1" sampleFresh sampleStateWithVersion
      (.restoreCard "c")).cardVersions = sampleStateWithVersion.cardVersions := by
  have h := versionHistory_length_changes "t1" sampleFresh sampleStateWithVersion
    "c" sampleCard sampleProject (by decide) (by decide)
  refine ⟨?_, ?_, ?_, ?_, ?_, h.2.2.2.2.2.2⟩
  · rw [h.1 {}]; decide
  · rw [h.2.1]; decide
  · rw [h.2.2.1 "doing" 0]; decide
  · rw [h.2.2.2.1 (by decide)]; decide
  · exact h.2.2.2.2.2.1 _

/-- Helper: UNDO_CARD stores, under the card's key, exactly the card
reconstructed from the popped snapshot with `updatedAt` refreshed. -/
theorem undo_restores_snapshot (now : String) (fresh : Nat → String)
    (s : BoardState) (id : String) (vs : List CardVersion) (v : CardVersion)
    (p : Project)
    (hv : objGet s.cardVersions id = some vs) (hl : vs.getLast? = some v)
    (hp : getActiveProject s = some p) :
    objGet (boardReducer now fresh s (.undoCard id)).cards id
      = some
        { id := id
          projectId := v.data.projectId
          title := v.data.title
          description := v.data.description
          type := v.data.type
          priority := v.data.priority
          dueDate := v.data.dueDate
          labels := v.data.labels
          assignee := v.data.assignee
          laneId := v.data.laneId
          order := v.data.order
          isDeleted := v.data.isDeleted
          createdAt := v.data.createdAt
          updatedAt := now } := by
  rw [boardReducer_undoCard now fresh s id vs v p hv hl hp]
  exact objGet_objSet_self _ _ _

/-- C3 counterexample: the claim quantifies over every state containing the
card, but without an active project UPDATE_CARD and UNDO_CARD are both
no-ops (the guard of C9), so after the UPDATE/UNDO pair the card's
updatedAt still holds its original value `t0` instead of the undo time
`t2` as the claim demands. -/
theorem updateCard_undoCard_no_refresh_without_activeProject :
    (objGet sampleStateNoActive.cards "c").isSome = true ∧
    (objGet (boardReducer "t2" sampleFresh
        (boardReducer "t1" sampleFresh sampleStateNoActive
          (.updateCard "c" { title := some "Changed" }))
        (.undoCard "c")).cards "c").map (fun rc => rc.updatedAt) = some "t0" ∧
    ¬ ((objGet (boardReducer "t2" sampleFresh
        (boardReducer "t1" sampleFresh sampleStateNoActive
          (.updateCard "c" { title := some "Changed" }))
        (.undoCard "c")).cards "c").map (fun rc => rc.updatedAt) = some "t2") := by
  decide

/-- C3 (amended): provided an active project exists, UPDATE_CARD(id, patch)
followed by UNDO_CARD(id) restores the card's title, description, type,
priority, dueDate, labels, assignee, laneId, order and isDeleted to their
pre-update values, while updatedAt is set to the time of the undo. -/
theorem updateCard_undoCard_round_trip (now1 now2 : String)
    (fresh1 fresh2 : Nat → String) (s : BoardState) (id : String)
    (patch : CardPatch) (c : Card) (p : Project)
    (h1 : objGet s.cards id = some c) (h2 : getActiveProject s = some p) :
    (objGet (boardReducer now2 fresh2
        (boardReducer now1 fresh1 s (.updateCard id patch))
        (.undoCard id)).cards id).map (fun rc => rc.title) = some c.title ∧
    (objGet (boardReducer now2 fresh2
        (boardReducer now1 fresh1 s (.updateCard id patch))
        (.undoCard id)).cards id).map (fun rc => rc.description)
      = some c.description ∧
    (objGet (boardReducer now2 fresh2
        (boardReducer now1 fresh1 s (.updateCard id patch))
        (.undoCard id)).cards id).map (fun rc => rc.type) = some c.type ∧
    (objGet (boardReducer now2 fresh2
        (boardReducer now1 fresh1 s (.updateCard id patch))
        (.undoCard id)).cards id).map (fun rc => rc.priority) = some c.priority ∧
    (objGet (boardReducer now2 fresh2
        (boardReducer now1 fresh1 s (.updateCard id patch))
        (.undoCard id)).cards id).map (fun rc => rc.dueDate) = some c.dueDate ∧
    (objGet (boardReducer now2 fresh2
        (boardReducer now1 fresh1 s (.updateCard id patch))
        (.undoCard id)).cards id).map (fun rc => rc.labels) = some c.labels ∧
    (objGet (boardReducer now2 fresh2
        (boardReducer now1 fresh1 s (.updateCard id patch))
        (.undoCard id)).cards id).map (fun rc => rc.assignee) = some c.assignee ∧
    (objGet (boardReducer now2 fresh2
        (boardReducer now1 fresh1 s (.updateCard id patch))
        (.undoCard id)).cards id).map (fun rc => rc.laneId) = some c.laneId ∧
    (objGet (boardReducer now2 fresh2
        (boardReducer now1 fresh1 s (.updateCard id patch))
        (.undoCard id)).cards id).map (fun rc => rc.order) = some c.order ∧
    (objGet (boardReducer now2 fresh2
        (boardReducer now1 fresh1 s (.updateCard id patch))
        (.undoCard id)).cards id).map (fun rc => rc.isDeleted) = some c.isDeleted ∧
    (objGet (boardReducer now2 fresh2
        (boardReducer now1 fresh1 s (.updateCard id patch))
        (.undoCard id)).cards id).map (fun rc => rc.updatedAt) = some now2 := by
  have hs1 := boardReducer_updateCard now1 fresh1 s id patch c p h1 h2
  have hvb : objGet (boardReducer now1 fresh1 s (.updateCard id patch)).cardVersions id
      = some (((objGet s.cardVersions id).getD [])
          ++ [createCardVersion (fresh1 0) now1 c ((objGet s.cardVersions id).getD [])]) := by
    rw [hs1]
    exact objGet_objSet_self _ _ _
  have hact : getActiveProject (boardReducer now1 fresh1 s (.updateCard id patch))
      = some { p with updatedAt := now1 } := by
    rw [hs1]
    exact getActiveProject_update s _ p (fun q => { q with updatedAt := now1 })
      h2 rfl rfl rfl
  have hres := undo_restores_snapshot now2 fresh2
    (boardReducer now1 fresh1 s (.updateCard id patch)) id _ _
    { p with updatedAt := now1 } hvb (List.getLast?_concat _) hact
  rw [hres]
  exact ⟨rfl, rfl, rfl, rfl, rfl, rfl, rfl, rfl, rfl, rfl, rfl⟩

/-- Witness for C3 on the sample board with a title patch. -/
theorem updateCard_undoCard_round_trip_witness :
    (objGet (boardReducer "t2" sampleFresh
        (boardReducer "t1" sampleFresh sampleState
          (.updateCard "c" { title := some "Changed" }))
        (.undoCard "c")).cards "c").map (fun rc => rc.title)
      = some sampleCard.title ∧
    (objGet (boardReducer "t2" sampleFresh
        (boardReducer "t1" sampleFresh sampleState
          (.updateCard "c" { title := some "Changed" }))
        (.undoCard "c")).cards "c").map (fun rc => rc.laneId)
      = some sampleCard.laneId ∧
    (objGet (boardReducer "t2" sampleFresh
        (boardReducer "t1" sampleFresh sampleState
          (.updateCard "c" { title := some "Changed" }))
        (.undoCard "c")).cards "c").map (fun rc => rc.updatedAt) = some "t2" :=
  have h := updateCard_undoCard_round_trip "t1" "t2" sampleFresh sampleFresh
    sampleState "c" { title := some "Changed" } sampleCard sampleProject
    (by decide) (by decide)
  ⟨h.1, h.2.2.2.2.2.2.2.1, h.2.2.2.2.2.2.2.2.2.2⟩

/-- Project backfill does not change ids, so the containment test over the
resolved list equals the test over the raw list. -/
theorem any_map_resolveRawProject (rawProjects : List RawProject) (pid : String) :
    ((rawProjects.map resolveRawProject).any (fun p => p.id == pid))
      = rawProjects.any (fun p => p.id == pid) := by
  induction rawProjects with
  | nil => rfl
  | cons r rs ih =>
    simp only [List.map_cons, List.any_cons]
    rw [ih]
    rfl

/-- Resolution over the backfilled project list agrees with resolution over
the raw list (ids are untouched by project backfill). -/
theorem resolveActive_on_resolved (rawActive : Option String)
    (rawProjects : List RawProject) :
    resolveActiveProjectId rawActive (rawProjects.map resolveRawProject)
      = match rawActive with
        | some pid =>
          if rawProjects.any (fun p => p.id == pid) then some pid
          else (rawProjects.head?).map (fun p => p.id)
        | none => (rawProjects.head?).map (fun p => p.id) := by
  rw [resolveActive_spec]
  have hH : (((rawProjects.map resolveRawProject).head?).map (fun p => p.id))
      = (rawProjects.head?).map (fun p => p.id) := by
    rw [List.head?_map, Option.map_map]
    rfl
  cases rawActive with
  | some pid =>
    have hA := any_map_resolveRawProject rawProjects pid
    show (if ((rawProjects.map resolveRawProject).any (fun p => p.id == pid)) = true
        then some pid
        else ((rawProjects.map resolveRawProject).head?).map (fun p => p.id))
      = (if (rawProjects.any (fun p => p.id == pid)) = true then some pid
        else (rawProjects.head?).map (fun p => p.id))
    rw [hA, hH]
  | none =>
    show ((rawProjects.map resolveRawProject).head?).map (fun p => p.id)
      = (rawProjects.head?).map (fun p => p.id)
    exact hH

/-- C7: normalization is idempotent — re-normalizing the persisted image of
a normalized state (legacy or multi-project input) returns it unchanged. -/
theorem normalizeState_idempotent (now1 now2 : String)
    (fresh1 fresh2 : Nat → String) (raw : RawState) :
    normalizeState now2 fresh2 (BoardState.toRaw (normalizeState now1 fresh1 raw))
      = normalizeState now1 fresh1 raw :=
  normalizeState_toRaw now2 fresh2 (normalizeState now1 fresh1 raw)
    (normalizeState_activeConsistent now1 fresh1 raw)

/-- C8 counterexample: the claim says a version snapshot's missing
`projectId` is backfilled with the resolved active project id, but when the
owning card carries its own (different) `projectId` the snapshot is
backfilled from the card instead: active resolves to `A`, the snapshot gets
`B`. -/
theorem normalizeState_snapshot_backfill_uses_card_projectId :
    (normalizeState "tn" sampleFresh rawMultiMixed).activeProjectId = some "A" ∧
    (objGet (normalizeState "tn" sampleFresh rawMultiMixed).cardVersions "c").map
        (fun vs => vs.map (fun v => v.data.projectId)) = some ["B"] ∧
    ¬ ((objGet (normalizeState "tn" sampleFresh rawMultiMixed).cardVersions "c").map
        (fun vs => vs.map (fun v => v.data.projectId)) = some ["A"]) := by
  decide

/-- C8 (amended): for multi-project input, `activeProjectId` resolves to the
raw value when it names an existing project, else the first project's id,
else null; each card's missing `projectId` is backfilled with the resolved
active id (empty string when null); each version snapshot's missing
`projectId` is backfilled with its owning card's resolved `projectId`,
falling back to the resolved active id (or empty string) when the card is
absent. -/
theorem normalizeState_multi_resolution_and_backfill
    (now : String) (fresh : Nat → String) (rawProjects : List RawProject)
    (rawActive : Option String) (rawCards : List (String × RawCard))
    (rawVers : Option (List (String × List RawCardVersion)))
    (isLoading : Option Bool) (error : Option String) :
    ((normalizeState now fresh
        (.multi rawProjects rawActive rawCards rawVers isLoading error)).activeProjectId
      = match rawActive with
        | some pid =>
          if rawProjects.any (fun p => p.id == pid) then some pid
          else (rawProjects.head?).map (fun p => p.id)
        | none => (rawProjects.head?).map (fun p => p.id)) ∧
    ((normalizeState now fresh
        (.multi rawProjects rawActive rawCards rawVers isLoading error)).cards.map
          (fun e => (e.1, e.2.projectId))
      = rawCards.map (fun e => (e.1, e.2.projectId.getD
          (((normalizeState now fresh
            (.multi rawProjects rawActive rawCards rawVers isLoading
              error)).activeProjectId).getD "")))) ∧
    ((normalizeState now fresh
        (.multi rawProjects rawActive rawCards rawVers isLoading error)).cardVersions.map
          (fun e => (e.1, e.2.map (fun v => v.data.projectId)))
      = (rawVers.getD []).map (fun e => (e.1, e.2.map (fun v =>
          v.data.projectId.getD
            (match objGet (normalizeState now fresh
                (.multi rawProjects rawActive rawCards rawVers isLoading
                  error)).cards e.1 with
             | some c => c.projectId
             | none => ((normalizeState now fresh
                 (.multi rawProjects rawActive rawCards rawVers isLoading
                   error)).activeProjectId).getD ""))))) := by
  refine ⟨?_, ?_, ?_⟩
  · show resolveActiveProjectId rawActive (rawProjects.map resolveRawProject) = _
    exact resolveActive_on_resolved rawActive rawProjects
  · have hNc : (normalizeState now fresh
        (.multi rawProjects rawActive rawCards rawVers isLoading error)).cards
        = rawCards.map (fun e => (e.1, resolveRawCard
            ((normalizeState now fresh
              (.multi rawProjects rawActive rawCards rawVers isLoading
                error)).activeProjectId) e.2)) := rfl
    rw [hNc, List.map_map]
    exact List.map_congr_left fun e he => rfl
  · have hNv : (normalizeState now fresh
        (.multi rawProjects rawActive rawCards rawVers isLoading error)).cardVersions
        = resolveRawVersions
            (normalizeState now fresh
              (.multi rawProjects rawActive rawCards rawVers isLoading error)).cards
            (((normalizeState now fresh
              (.multi rawProjects rawActive rawCards rawVers isLoading
                error)).activeProjectId).getD "")
            (rawVers.getD []) := rfl
    rw [hNv]
    unfold resolveRawVersions
    rw [List.map_map]
    refine List.map_congr_left fun e he => ?_
    show (e.1, (e.2.map (resolveRawVersion _)).map (fun v => v.data.projectId)) = _
    rw [List.map_map]
    rfl

/-- Witness for C5 at the sample board and a card id `zzz` that does not
exist and has no versions. -/
theorem reducer_noop_on_failed_preconditions_witness :
    boardReducer "t1" sampleFresh sampleState (.updateCard "zzz" {}) = sampleState ∧
    boardReducer "t1" sampleFresh sampleState (.deleteCard "zzz") = sampleState ∧
    boardReducer "t1" sampleFresh sampleState (.moveCard "zzz" "doing" 0) = sampleState ∧
    boardReducer "t1" sampleFresh sampleState (.undoCard "zzz") = sampleState ∧
    boardReducer "t1" sampleFresh sampleState .unknown = sampleState :=
  have h := reducer_noop_on_failed_preconditions "t1" sampleFresh sampleState
  ⟨h.1 "zzz" {} (by decide), h.2.1 "zzz" (by decide), h.2.2.1 "zzz" "doing" 0 (by decide),
   h.2.2.2.1 "zzz" (by decide), h.2.2.2.2.1⟩

end Pirello
